import Mathlib

/-!
Verification development for the agents_server component of
schlunsen/claude-control-terminal (src/internal/agents/agents_server/src/).

The Python source is shallowly embedded: the mutable dictionaries owned by
SessionManager (session.py) and AgentManager (agent_manager.py) become
insertion-ordered association lists inside explicit state records, and each
method becomes a pure state-transformer returning its result together with
the successor state.  The asyncio control flow of the PreToolUse permission
hook is split at its suspension points into the separate transition
functions the event loop can interleave (register, send-failure, timeout,
resume), with AgentManager.handle_permission_response as the transition the
connection dispatcher runs in between.  Timestamps are integers, uuid4
minting is a fresh-number counter, and callbacks are modelled by their
presence plus the list of messages they were given.
-/

/-! ## Association lists with Python dict semantics (insertion order kept) -/

/-- Lookup in an insertion-ordered association list (Python `d.get(k)`). -/
def alistLookup {κ α : Type} [DecidableEq κ] : List (κ × α) → κ → Option α
  | [], _ => none
  | (k, v) :: rest, key => if k = key then some v else alistLookup rest key

/-- Insertion with replacement (Python `d[k] = v`): an existing binding is
overwritten in place, a new key is appended, preserving insertion order. -/
def alistInsert {κ α : Type} [DecidableEq κ] : List (κ × α) → κ → α → List (κ × α)
  | [], key, v => [(key, v)]
  | (k, w) :: rest, key, v =>
      if k = key then (k, v) :: rest else (k, w) :: alistInsert rest key v

/-- Removal (Python `del d[k]`), a no-op when the key is absent. -/
def alistErase {κ α : Type} [DecidableEq κ] : List (κ × α) → κ → List (κ × α)
  | [], _ => []
  | (k, v) :: rest, key =>
      if k = key then alistErase rest key else (k, v) :: alistErase rest key

theorem alistLookup_insert_self {κ α : Type} [DecidableEq κ]
    (l : List (κ × α)) (k : κ) (v : α) :
    alistLookup (alistInsert l k v) k = some v := by
  induction l with
  | nil => simp [alistInsert, alistLookup]
  | cons hd tl ih =>
      obtain ⟨k0, v0⟩ := hd
      by_cases h : k0 = k <;> simp [alistInsert, alistLookup, h, ih]

theorem alistLookup_insert_ne {κ α : Type} [DecidableEq κ]
    (l : List (κ × α)) (k k' : κ) (v : α) (h : k ≠ k') :
    alistLookup (alistInsert l k v) k' = alistLookup l k' := by
  induction l with
  | nil => simp [alistInsert, alistLookup, h]
  | cons hd tl ih =>
      obtain ⟨k0, v0⟩ := hd
      by_cases h0 : k0 = k
      · subst h0; simp [alistInsert, alistLookup, h]
      · simp [alistInsert, alistLookup, h0, ih]

theorem alistLookup_erase_self {κ α : Type} [DecidableEq κ]
    (l : List (κ × α)) (k : κ) :
    alistLookup (alistErase l k) k = none := by
  induction l with
  | nil => simp [alistErase, alistLookup]
  | cons hd tl ih =>
      obtain ⟨k0, v0⟩ := hd
      by_cases h : k0 = k <;> simp [alistErase, alistLookup, h, ih]

theorem alistLookup_erase_ne {κ α : Type} [DecidableEq κ]
    (l : List (κ × α)) (k k' : κ) (h : k ≠ k') :
    alistLookup (alistErase l k) k' = alistLookup l k' := by
  induction l with
  | nil => simp [alistErase, alistLookup]
  | cons hd tl ih =>
      obtain ⟨k0, v0⟩ := hd
      by_cases h0 : k0 = k
      · subst h0; simp [alistErase, alistLookup, h, ih]
      · simp [alistErase, alistLookup, h0, ih]

theorem alistErase_length_lt {κ α : Type} [DecidableEq κ]
    (l : List (κ × α)) (k : κ) (h : (alistLookup l k).isSome) :
    (alistErase l k).length < l.length := by
  induction l with
  | nil => simp [alistLookup] at h
  | cons hd tl ih =>
      obtain ⟨k0, v0⟩ := hd
      by_cases h0 : k0 = k
      · simp only [alistErase, h0, if_pos rfl, List.length_cons]
        calc (alistErase tl k).length ≤ tl.length := alistErase_length_le tl k
          _ < tl.length + 1 := Nat.lt_succ_self _
      · simp only [alistLookup, h0, if_neg h0] at h
        simp only [alistErase, if_neg h0, List.length_cons]
        exact Nat.succ_lt_succ (ih h)
where
  alistErase_length_le {κ α : Type} [DecidableEq κ] (l : List (κ × α)) (k : κ) :
      (alistErase l k).length ≤ l.length := by
    induction l with
    | nil => simp [alistErase]
    | cons hd tl ih =>
        obtain ⟨k0, v0⟩ := hd
        by_cases h0 : k0 = k
        · simp only [alistErase, if_pos h0]; exact Nat.le_succ_of_le ih
        · simp only [alistErase, if_neg h0, List.length_cons]
          exact Nat.succ_le_succ ih

theorem alistInsert_length_of_absent {κ α : Type} [DecidableEq κ]
    (l : List (κ × α)) (k : κ) (v : α) (h : alistLookup l k = none) :
    (alistInsert l k v).length = l.length + 1 := by
  induction l with
  | nil => simp [alistInsert]
  | cons hd tl ih =>
      obtain ⟨k0, v0⟩ := hd
      by_cases h0 : k0 = k
      · simp [alistLookup, h0] at h
      · simp only [alistLookup, if_neg h0] at h
        simp [alistInsert, h0, ih h]

/-! ## Data model (models.py / config.py)

Session identifiers (uuid.UUID) are numbers, datetimes are integer
timestamps.  Only the fields the embedded methods read are carried. -/

abbrev SessionId := Nat

abbrev RequestId := String

/-- config.py Settings: the two knobs the registry reads. -/
structure Settings where
  max_concurrent_sessions : Nat
  session_timeout_seconds : Int
deriving DecidableEq, Repr

/-- config.py defaults: max_concurrent_sessions = 10, session_timeout_seconds = 3600. -/
def defaultSettings : Settings :=
  { max_concurrent_sessions := 10, session_timeout_seconds := 3600 }

/-- models.py SessionStatus. -/
inductive SessionStatus where
  | active
  | idle
  | processing
  | error
  | ended
deriving DecidableEq, Repr

/-- models.py SessionOptions (fields the embedded code reads). -/
structure SessionOptions where
  system_prompt : Option String := none
  tools : List String := ["Read", "Write", "Edit", "Bash", "Search"]
  working_directory : Option String := none
  permission_mode : Option String := some "default"
  conversation_history : Option String := none
deriving DecidableEq, Repr

/-- models.py AgentSession. -/
structure AgentSession where
  id : SessionId
  created_at : Int
  updated_at : Int
  status : SessionStatus
  options : SessionOptions
  message_count : Nat
  error_message : Option String
deriving DecidableEq, Repr

/-! ## Session Registry (session.py SessionManager)

self.sessions and self.session_locks become two association lists; the
asyncio.Lock objects carry no data, so the lock table only records which
keys hold a lock.  Methods take the current wall-clock time as an argument
where the source calls datetime.now(). -/

structure SessionManagerState where
  sessions : List (SessionId × AgentSession)
  session_locks : List (SessionId × Unit)
deriving DecidableEq, Repr

/-- Failure modes of SessionManager.create_session.  The source raises
ValueError for the first two; creating with session_id = None reaches
AgentSession(id=UUID()) and uuid.UUID() with no arguments raises TypeError,
modelled as invalidSessionId. -/
inductive CreateSessionError where
  | capacityExceeded
  | alreadyExists
  | invalidSessionId
deriving DecidableEq, Repr

/-- session.py SessionManager.create_session (lines 101-137).  The capacity
check runs first, then the identifier-collision check; only then are the
session and its lock inserted.  On error the state is returned unchanged
(the source raises before any mutation). -/
def create_session (settings : Settings) (now : Int) (st : SessionManagerState)
    (session_id : Option SessionId) (options : Option SessionOptions) :
    (Except CreateSessionError AgentSession) × SessionManagerState :=
  if st.sessions.length ≥ settings.max_concurrent_sessions then
    (.error .capacityExceeded, st)
  else
    match session_id with
    | some sid =>
        if (alistLookup st.sessions sid).isSome then
          (.error .alreadyExists, st)
        else
          let session : AgentSession :=
            { id := sid
              created_at := now
              updated_at := now
              status := .idle
              options := options.getD {}
              message_count := 0
              error_message := none }
          (.ok session,
           { st with
               sessions := alistInsert st.sessions sid session
               session_locks := alistInsert st.session_locks sid () })
    | none => (.error .invalidSessionId, st)

/-- session.py SessionManager.get_session. -/
def get_session (st : SessionManagerState) (session_id : SessionId) :
    Option AgentSession :=
  alistLookup st.sessions session_id

/-- session.py SessionManager.update_session (lines 143-171): under the
per-session lock, apply the provided fields and bump updated_at; None when
the session is absent. -/
def update_session (now : Int) (st : SessionManagerState) (session_id : SessionId)
    (status : Option SessionStatus) (error_message : Option String) :
    Option AgentSession × SessionManagerState :=
  match alistLookup st.sessions session_id with
  | none => (none, st)
  | some session =>
      let session' :=
        { session with
            status := status.getD session.status
            error_message :=
              match error_message with
              | some e => some e
              | none => session.error_message
            updated_at := now }
      (some session',
       { st with sessions := alistInsert st.sessions session_id session' })

/-- session.py SessionManager.increment_message_count. -/
def increment_message_count (now : Int) (st : SessionManagerState)
    (session_id : SessionId) : Option AgentSession × SessionManagerState :=
  match alistLookup st.sessions session_id with
  | none => (none, st)
  | some session =>
      let session' :=
        { session with message_count := session.message_count + 1, updated_at := now }
      (some session',
       { st with sessions := alistInsert st.sessions session_id session' })

/-- session.py SessionManager.end_session (lines 185-207): False when the
session is absent; otherwise the status is set to ENDED through
update_session, then the session and its lock are removed.  Only
self.sessions and self.session_locks are touched. -/
def end_session (now : Int) (st : SessionManagerState) (session_id : SessionId) :
    Bool × SessionManagerState :=
  if (alistLookup st.sessions session_id).isSome then
    let st1 := (update_session now st session_id (some .ended) none).2
    (true,
     { st1 with
         sessions := alistErase st1.sessions session_id
         session_locks := alistErase st1.session_locks session_id })
  else
    (false, st)

/-- session.py SessionManager.list_sessions. -/
def list_sessions (st : SessionManagerState) : List AgentSession :=
  st.sessions.map Prod.snd

/-- session.py SessionManager._cleanup_idle_sessions (lines 224-240): collect
every session in IDLE status whose updated_at precedes now minus the
configured timeout, then end each one through end_session. -/
def cleanup_idle_sessions (settings : Settings) (now : Int)
    (st : SessionManagerState) : SessionManagerState :=
  let timeout_threshold := now - settings.session_timeout_seconds
  let sessions_to_remove :=
    (st.sessions.filter
      (fun p => p.2.status = .idle ∧ p.2.updated_at < timeout_threshold)).map Prod.fst
  sessions_to_remove.foldl (fun acc sid => (end_session now acc sid).2) st

/-! ## Agent Execution Adapter and Permission Broker (agent_manager.py AgentManager)

One state record carries the six dictionaries of the AgentManager class.
The ClaudeSDKClient objects themselves are opaque; active_agents records
which sessions hold one, and a close-failure oracle stands in for the
exceptions client teardown may raise.  MCPServerConfig is imported by
agent_manager.py from models; its definition is not in src/, but the
permission check reads exactly one boolean field of it (require_permission),
which is all the record needs to carry. -/

/-- ClaudeAgentOptions as built by create_agent: permission_mode is always a
concrete string there (options.permission_mode or the literal default). -/
structure ClaudeAgentOptions where
  permission_mode : String
deriving DecidableEq, Repr

/-- models.py MCPServerConfig, as read by _requires_permission: only the
require_permission flag of the named server is consulted. -/
structure MCPServerConfig where
  name : String
  require_permission : Bool
deriving DecidableEq, Repr

/-- One entry of pending_permissions\[session_id\] (agent_manager.py lines
81-87): tool, parameters, the backend correlation token, the creation
timestamp, and the stored send-callback, modelled by whether one was
registered. -/
structure PermissionData where
  tool : String
  parameters : List (String × String)
  tool_use_id : String
  timestamp : Int
  has_send_callback : Bool
deriving DecidableEq, Repr

/-- State of one asyncio.Future\[bool\]: pending, or resolved once by
set_result. -/
inductive FutureState where
  | pendingFut
  | resolvedFut (approved : Bool)
deriving DecidableEq, Repr

structure AgentManagerState where
  active_agents : List (SessionId × Unit)
  agent_options : List (SessionId × ClaudeAgentOptions)
  pending_permissions : List (SessionId × List (RequestId × PermissionData))
  permission_futures : List (RequestId × FutureState)
  permission_callbacks : List (SessionId × Unit)
  mcp_server_configs : List (SessionId × List (String × MCPServerConfig))
deriving DecidableEq, Repr

/-- Lookup in a nested pending-permissions map. -/
def pendingLookupMap (pm : List (SessionId × List (RequestId × PermissionData)))
    (session_id : SessionId) (request_id : RequestId) : Option PermissionData :=
  match alistLookup pm session_id with
  | none => none
  | some m => alistLookup m request_id

/-- Lookup in the broker's pending_permissions table. -/
def pendingLookup (st : AgentManagerState) (session_id : SessionId)
    (request_id : RequestId) : Option PermissionData :=
  pendingLookupMap st.pending_permissions session_id request_id

/-- agent_manager.py lines 78-87: if session_id not in pending_permissions,
allocate the inner dict, then store the request entry. -/
def pendingInsert (pm : List (SessionId × List (RequestId × PermissionData)))
    (session_id : SessionId) (request_id : RequestId) (data : PermissionData) :
    List (SessionId × List (RequestId × PermissionData)) :=
  match alistLookup pm session_id with
  | none => alistInsert pm session_id [(request_id, data)]
  | some m => alistInsert pm session_id (alistInsert m request_id data)

/-- agent_manager.py lines 691-696: del session_permissions\[request_id\],
and when the inner dict becomes empty, del pending_permissions\[session_id\]. -/
def pendingErase (pm : List (SessionId × List (RequestId × PermissionData)))
    (session_id : SessionId) (request_id : RequestId) :
    List (SessionId × List (RequestId × PermissionData)) :=
  match alistLookup pm session_id with
  | none => pm
  | some m =>
      let m' := alistErase m request_id
      if m'.isEmpty then alistErase pm session_id
      else alistInsert pm session_id m'

/-- Python str.startswith(p): p's characters are a prefix of s's. -/
def pyStartsWith (s p : String) : Bool :=
  p.data.isPrefixOf s.data

/-- Python s.split(sep) specialised to sep equal to two underscores: scan
left to right, splitting at each non-overlapping occurrence; acc holds the
current segment reversed. -/
def splitOnDoubleUnderscoreAux : List Char → List Char → List String
  | [], acc => [String.mk acc.reverse]
  | '_' :: '_' :: rest, acc =>
      String.mk acc.reverse :: splitOnDoubleUnderscoreAux rest []
  | c :: rest, acc => splitOnDoubleUnderscoreAux rest (c :: acc)

/-- Python tool_name.split(two underscores) (agent_manager.py line 744). -/
def splitOnDoubleUnderscore (s : String) : List String :=
  splitOnDoubleUnderscoreAux s.data []

/-- agent_manager.py AgentManager._requires_permission (lines 712-766). -/
def requires_permission (st : AgentManagerState) (session_id : SessionId)
    (tool_name : String) : Bool :=
  match alistLookup st.agent_options session_id with
  | none => false
  | some agentOptions =>
      if agentOptions.permission_mode ≠ "default" then false
      else if pyStartsWith tool_name "mcp__" then
        let parts := splitOnDoubleUnderscore tool_name
        if parts.length ≥ 3 then
          match parts.get? 1 with
          | none => true
          | some server_name =>
              let mcp_configs :=
                (alistLookup st.mcp_server_configs session_id).getD []
              match alistLookup mcp_configs server_name with
              | some mcp_config => mcp_config.require_permission
              | none => true
        else true
      else tool_name ∈ ["Write", "Edit", "Bash"]

/-- The decision the PreToolUse hook returns to the backend: the empty dict
(allow) or a hookSpecificOutput deny with its permissionDecisionReason. -/
inductive HookDecision where
  | allow
  | deny (reason : String)
deriving DecidableEq, Repr

/-- Outbound frames the broker pushes through the stored callbacks. -/
structure PermissionAck where
  session_id : SessionId
  request_id : RequestId
  approved : Bool
  tool : String
  ack_status : String
deriving DecidableEq, Repr

/-- agent_manager.py lines 72-91 (pretool_hook, creation phase): read the
registered callback, store the pending-permission entry (carrying that
callback) and a fresh pending future, keyed by the minted request id. -/
def pretool_hook_register (st : AgentManagerState) (session_id : SessionId)
    (request_id : RequestId) (tool_name : String)
    (tool_input : List (String × String)) (tool_use_id : String) (now : Int) :
    AgentManagerState :=
  let callback := (alistLookup st.permission_callbacks session_id).isSome
  { st with
      pending_permissions :=
        pendingInsert st.pending_permissions session_id request_id
          { tool := tool_name
            parameters := tool_input
            tool_use_id := tool_use_id
            timestamp := now
            has_send_callback := callback }
      permission_futures :=
        alistInsert st.permission_futures request_id .pendingFut }

/-- agent_manager.py lines 120-128: with no callback registered the hook
returns a deny immediately; neither the pending entry nor the future is
removed. -/
def pretool_hook_no_callback (st : AgentManagerState) :
    HookDecision × AgentManagerState :=
  (.deny "No permission callback registered", st)

/-- agent_manager.py lines 108-119: the callback send raised; the future is
deleted (the pending-permissions entry is not) and the hook denies. -/
def pretool_hook_send_failure (st : AgentManagerState) (request_id : RequestId)
    (errText : String) : HookDecision × AgentManagerState :=
  (.deny ("Failed to send permission request: " ++ errText),
   { st with permission_futures := alistErase st.permission_futures request_id })

/-- agent_manager.py lines 150-161: asyncio.wait_for timed out after 30
seconds; the future is deleted (the pending-permissions entry is not) and
the hook denies with the timeout reason. -/
def pretool_hook_timeout (st : AgentManagerState) (request_id : RequestId) :
    HookDecision × AgentManagerState :=
  (.deny "Permission request timed out",
   { st with permission_futures := alistErase st.permission_futures request_id })

/-- agent_manager.py lines 131-149: the await resumed with the resolved
decision; the future is deleted and the hook allows, or denies with the
user-denial reason. -/
def pretool_hook_resume (st : AgentManagerState) (request_id : RequestId)
    (approved : Bool) : HookDecision × AgentManagerState :=
  let st' :=
    { st with permission_futures := alistErase st.permission_futures request_id }
  if approved then (.allow, st') else (.deny "User denied permission", st')

/-- Result of AgentManager.handle_permission_response: the returned boolean,
the successor state, and the permission_acknowledged frames pushed through
the stored callback (at most one, best-effort). -/
structure HandleResponseResult where
  ok : Bool
  state : AgentManagerState
  acks : List PermissionAck
deriving DecidableEq, Repr

/-- agent_manager.py AgentManager.handle_permission_response (lines 618-710):
missing future means a stale response and returns False untouched; otherwise
the pending metadata, when present, yields a permission_acknowledged frame
via its stored callback and is deleted (dropping the per-session inner dict
when it empties), and the future is resolved with the decision only if it is
not already done.  The future entry itself stays in permission_futures; the
suspended hook deletes it when it resumes. -/
def handle_permission_response (st : AgentManagerState) (session_id : SessionId)
    (request_id : RequestId) (approved : Bool) : HandleResponseResult :=
  match alistLookup st.permission_futures request_id with
  | none => { ok := false, state := st, acks := [] }
  | some future =>
      let (st1, acks) : AgentManagerState × List PermissionAck :=
        match pendingLookup st session_id request_id with
        | some permission_data =>
            ({ st with
                 pending_permissions :=
                   pendingErase st.pending_permissions session_id request_id },
             if permission_data.has_send_callback then
               [{ session_id := session_id
                  request_id := request_id
                  approved := approved
                  tool := permission_data.tool
                  ack_status := if approved then "executing" else "denied" }]
             else [])
        | none => (st, [])
      let st2 :=
        match future with
        | .pendingFut =>
            { st1 with
                permission_futures :=
                  alistInsert st1.permission_futures request_id (.resolvedFut approved) }
        | .resolvedFut _ => st1
      { ok := true, state := st2, acks := acks }

/-- agent_manager.py AgentManager.end_agent (lines 892-932).  closeFails
stands in for client.__aexit__ raising: either way the session is removed
from active_agents, agent_options and mcp_server_configs; the boolean
result is False exactly when the client was absent or its close raised. -/
def end_agent (closeFails : SessionId → Bool) (st : AgentManagerState)
    (session_id : SessionId) : Bool × AgentManagerState :=
  if (alistLookup st.active_agents session_id).isSome then
    let st' :=
      { st with
          active_agents := alistErase st.active_agents session_id
          agent_options := alistErase st.agent_options session_id
          mcp_server_configs := alistErase st.mcp_server_configs session_id }
    (!closeFails session_id, st')
  else
    (false, st)

/-- agent_manager.py AgentManager.kill_all_agents (lines 934-954): snapshot
the active session ids, end each agent, and count every iteration (end_agent
catches its own exceptions, so the except branch never skips the
increment). -/
def kill_all_agents (closeFails : SessionId → Bool) (st : AgentManagerState) :
    Nat × AgentManagerState :=
  let session_ids := st.active_agents.map Prod.fst
  session_ids.foldl
    (fun (acc : Nat × AgentManagerState) sid =>
      (acc.1 + 1, (end_agent closeFails acc.2 sid).2))
    (0, st)

/-- The agents_killed reply frame (models.py AgentsKilledMessage). -/
structure AgentsKilledReply where
  killed_count : Nat
  sessions_ended : List SessionId
deriving DecidableEq, Repr

/-- main.py WebSocketConnection.handle_kill_all_agents (lines 453-469): call
kill_all_agents, then read sessions_ended from agent_manager.active_agents —
after the kill has already emptied it. -/
def handle_kill_all_agents (closeFails : SessionId → Bool)
    (st : AgentManagerState) : AgentsKilledReply × AgentManagerState :=
  let (killed_count, st') := kill_all_agents closeFails st
  ({ killed_count := killed_count
     sessions_ended := st'.active_agents.map Prod.fst }, st')

/-! ## Combined server state (for the registry/adapter frame property)

session.py and agent_manager.py are separate module-level singletons; the
registry methods reference only self.sessions / self.session_locks, so their
lifting to the combined state leaves the adapter component untouched —
exactly the fact the frame claim is about. -/

structure ServerState where
  registry : SessionManagerState
  adapter : AgentManagerState
deriving DecidableEq, Repr

/-- end_session of the combined server: the registry method touches no
adapter state. -/
def server_end_session (now : Int) (st : ServerState) (session_id : SessionId) :
    Bool × ServerState :=
  let (ended, registry') := end_session now st.registry session_id
  (ended, { st with registry := registry' })

/-- The idle reaper at the combined server: _cleanup_idle_sessions calls only
SessionManager.end_session, never agent_manager.end_agent. -/
def server_cleanup_idle_sessions (settings : Settings) (now : Int)
    (st : ServerState) : ServerState :=
  { st with registry := cleanup_idle_sessions settings now st.registry }

/-- end_agent at the combined server (the separate adapter call that does
release the backend handle). -/
def server_end_agent (closeFails : SessionId → Bool) (st : ServerState)
    (session_id : SessionId) : Bool × ServerState :=
  let (ok, adapter') := end_agent closeFails st.adapter session_id
  (ok, { st with adapter := adapter' })

/-! ## Agent Execution Adapter stream (agent_manager.py AgentManager.send_prompt)

The backend stream is a list of typed claude_agent_sdk messages:
AssistantMessage with its content blocks (TextBlock / ToolUseBlock / any
other block kind such as thinking blocks), SystemMessage, and unknown
message classes, both of which the loop skips.  The legacy dict-shaped
branch (lines 523-546) is the compatibility shim the specification's design
notes exclude from normalized-event production and is not part of the typed
stream.  uuid.uuid4() message ids become a fresh-number counter, so ids
minted later are always new.  Exceptions are out of scope: the stream is
consumed to its end. -/

/-- One content block of an AssistantMessage. -/
inductive Block where
  | text (s : String)
  | toolUse (name : String) (input : List (String × String)) (id : String)
  | otherBlock
deriving DecidableEq, Repr

/-- One message of the backend response stream. -/
inductive SDKMessage where
  | assistant (content : List Block)
  | system
  | unknown
deriving DecidableEq, Repr

/-- The normalized events send_prompt yields to the dispatcher. -/
inductive Event where
  | thinking (b : Bool)
  | message (content : String) (complete : Bool) (message_id : Nat)
  | toolUse (tool : String) (parameters : List (String × String))
      (tool_use_id : String) (input : Option (List (String × String)))
  | errorEvent (msg : String)
deriving DecidableEq, Repr

/-- The loop variables of send_prompt (lines 407-415), with the uuid4 source
made explicit: current_message_id is the id under accumulation and next_id
the next fresh value. -/
structure StreamState where
  current_message_id : Nat
  next_id : Nat
  message_buffer : List String
  seen_content : List String
  thinking_sent : Bool
  last_message_had_tool_use : Bool
deriving DecidableEq, Repr

/-- Line 443 / 448: any(isinstance(block, ToolUseBlock) for block in content). -/
def hasToolUseBlock (content : List Block) : Bool :=
  content.any fun b => match b with | .toolUse .. => true | _ => false

/-- Line 448: any(isinstance(block, TextBlock) for block in content). -/
def hasTextBlock (content : List Block) : Bool :=
  content.any fun b => match b with | .text _ => true | _ => false

/-- The block loop of lines 475-501: text blocks accumulate content_parts in
order, tool-use blocks are yielded immediately (TodoWrite additionally
carries its full input when non-empty), other block kinds are dropped. -/
def processBlocks : List Block → List String × List Event
  | [] => ([], [])
  | b :: rest =>
      let (parts, evs) := processBlocks rest
      match b with
      | .text s => (s :: parts, evs)
      | .toolUse name input id =>
          (parts,
           .toolUse name input id
               (if name = "TodoWrite" ∧ ¬input.isEmpty then some input else none)
             :: evs)
      | .otherBlock => (parts, evs)

/-- Lines 434-440: turn off the thinking indicator on the first
AssistantMessage of the submission. -/
def thinkingPhase (st : StreamState) : List Event × StreamState :=
  if st.thinking_sent then ([], st)
  else ([.thinking false], { st with thinking_sent := true })

/-- Lines 452-463: flush the previous message buffer, if any, as a complete
message under the old id, and clear buffer and dedup set. -/
def flushPhase (st : StreamState) : List Event × StreamState :=
  if st.message_buffer.isEmpty then ([], st)
  else
    ([.message (String.join st.message_buffer) true st.current_message_id],
     { st with message_buffer := [], seen_content := [] })

/-- Lines 448-466: when the previous message had tool use and this one bears
text, flush, then mint a new message id for the post-tool content (minted
even when the buffer was empty). -/
def segmentationPhase (st : StreamState) (content : List Block) :
    List Event × StreamState :=
  if st.last_message_had_tool_use ∧ hasTextBlock content then
    let (fl, stf) := flushPhase st
    (fl, { stf with current_message_id := stf.next_id, next_id := stf.next_id + 1 })
  else ([], st)

/-- Lines 505-522: assemble the text parts; unless the assembled content was
already seen this submission segment, remember it, buffer it and yield it as
an incomplete message under the current id. -/
def contentPhase (st : StreamState) (content_parts : List String) :
    List Event × StreamState :=
  if content_parts.isEmpty then ([], st)
  else
    if String.join content_parts ∈ st.seen_content then ([], st)
    else
      ([.message (String.join content_parts) false st.current_message_id],
       { st with
           seen_content := String.join content_parts :: st.seen_content
           message_buffer := st.message_buffer ++ [String.join content_parts] })

/-- Lines 429-522: processing of one AssistantMessage, in source order:
thinking indicator (434-440), segmentation with flush and fresh id
(448-466), recording whether this message has tool use (468), the block
loop with its immediate tool-use yields (475-501), then dedup-guarded
content accumulation (505-522). -/
def processAssistant (st : StreamState) (content : List Block) :
    List Event × StreamState :=
  let (thinkEvs, st1) := thinkingPhase st
  let (flushEvs, st2) := segmentationPhase st1 content
  let st3 := { st2 with last_message_had_tool_use := hasToolUseBlock content }
  let (content_parts, toolEvs) := processBlocks content
  let (msgEvs, st4) := contentPhase st3 content_parts
  (thinkEvs ++ flushEvs ++ toolEvs ++ msgEvs, st4)

/-- One iteration of the receive loop (lines 421-553): SystemMessage and
unknown message kinds are skipped. -/
def processMessage (st : StreamState) : SDKMessage → List Event × StreamState
  | .assistant content => processAssistant st content
  | .system => ([], st)
  | .unknown => ([], st)

/-- Lines 407-415: fresh current id, empty buffer and dedup set, thinking
not yet turned off, no tool use seen. -/
def initialStreamState : StreamState :=
  { current_message_id := 0
    next_id := 1
    message_buffer := []
    seen_content := []
    thinking_sent := false
    last_message_had_tool_use := false }

/-- The whole receive loop over the stream. -/
def runStream : StreamState → List SDKMessage → List Event × StreamState
  | st, [] => ([], st)
  | st, m :: ms =>
      let (evs, st') := processMessage st m
      let (evs', st'') := runStream st' ms
      (evs ++ evs', st'')

/-- Lines 561-582, after the stream ends: turn thinking off if it never was,
then flush the accumulated buffer as the final complete message (nothing is
emitted from an empty buffer). -/
def endOfStreamEvents (st : StreamState) : List Event :=
  (if st.thinking_sent then [] else [.thinking false]) ++
  (if st.message_buffer.isEmpty then []
   else [.message (String.join st.message_buffer) true st.current_message_id])

/-- send_prompt (lines 393-582) as the event trace of one submission over a
typed backend stream: thinking(true) first (line 396), the receive loop,
then the end-of-stream epilogue. -/
def send_prompt_events (msgs : List SDKMessage) : List Event :=
  let (evs, st) := runStream initialStreamState msgs
  .thinking true :: (evs ++ endOfStreamEvents st)
/-! ## Supporting lemmas for the registry -/

theorem alistInsert_length_of_present {κ α : Type} [DecidableEq κ]
    (l : List (κ × α)) (k : κ) (v : α) (h : (alistLookup l k).isSome) :
    (alistInsert l k v).length = l.length := by
  induction l with
  | nil => simp [alistLookup] at h
  | cons hd tl ih =>
      obtain ⟨k0, v0⟩ := hd
      by_cases h0 : k0 = k
      · simp [alistInsert, h0]
      · simp only [alistLookup, if_neg h0] at h
        simp [alistInsert, h0, ih h]

theorem alistErase_insert_length_lt {κ α : Type} [DecidableEq κ]
    (l : List (κ × α)) (k : κ) (v : α) (h : (alistLookup l k).isSome) :
    (alistErase (alistInsert l k v) k).length < l.length := by
  have h1 := alistErase_length_lt (alistInsert l k v) k
    (by simp [alistLookup_insert_self])
  have h2 := alistInsert_length_of_present l k v h
  omega

theorem alistLookup_mem {κ α : Type} [DecidableEq κ]
    (l : List (κ × α)) (k : κ) (v : α) (h : alistLookup l k = some v) :
    (k, v) ∈ l := by
  induction l with
  | nil => simp [alistLookup] at h
  | cons hd tl ih =>
      obtain ⟨k0, v0⟩ := hd
      by_cases h0 : k0 = k
      · subst h0
        simp [alistLookup] at h
        subst h
        exact List.mem_cons_self _ _
      · simp only [alistLookup, if_neg h0] at h
        exact List.mem_cons_of_mem _ (ih h)

/-- end_session removes the targeted session from the sessions map. -/
theorem end_session_lookup_self (now : Int) (st : SessionManagerState)
    (sid : SessionId) :
    alistLookup (end_session now st sid).2.sessions sid = none := by
  unfold end_session
  by_cases h : (alistLookup st.sessions sid).isSome
  · simp only [h, if_pos rfl]
    exact alistLookup_erase_self _ _
  · simp only [if_neg h]
    simpa using Option.not_isSome_iff_eq_none.mp h

/-- end_session leaves every other session binding untouched. -/
theorem end_session_lookup_other (now : Int) (st : SessionManagerState)
    (sid other : SessionId) (h : other ≠ sid) :
    alistLookup (end_session now st other).2.sessions sid =
      alistLookup st.sessions sid := by
  unfold end_session update_session
  rcases hlook : alistLookup st.sessions other with _ | s
  · simp [hlook]
  · simp only [hlook, Option.isSome_some, if_true]
    rw [alistLookup_erase_ne _ _ _ h, alistLookup_insert_ne _ _ _ _ h]

/-- end_session shrinks the sessions map when the target is live. -/
theorem end_session_length_lt (now : Int) (st : SessionManagerState)
    (sid : SessionId) (h : (alistLookup st.sessions sid).isSome) :
    (end_session now st sid).2.sessions.length < st.sessions.length := by
  unfold end_session update_session
  rcases hlook : alistLookup st.sessions sid with _ | s
  · rw [hlook] at h; simp at h
  · simp only [hlook, Option.isSome_some, if_true]
    exact alistErase_insert_length_lt _ _ _ (by simp [hlook])

/-- Folding end_session over a list of ids removes every member of the list
and never resurrects an absent session. -/
theorem foldl_end_session_lookup_none (now : Int) (l : List SessionId)
    (st : SessionManagerState) (sid : SessionId)
    (h : sid ∈ l ∨ alistLookup st.sessions sid = none) :
    alistLookup
      (l.foldl (fun acc s => (end_session now acc s).2) st).sessions sid = none := by
  induction l generalizing st with
  | nil =>
      rcases h with h | h
      · simp at h
      · simpa using h
  | cons a tl ih =>
      simp only [List.foldl_cons]
      apply ih
      by_cases ha : sid = a
      · subst ha
        by_cases htl : sid ∈ tl
        · exact Or.inl htl
        · exact Or.inr (end_session_lookup_self now st sid)
      · rcases h with h | h
        · rcases List.mem_cons.mp h with h | h
          · exact absurd h ha
          · exact Or.inl h
        · exact Or.inr
            ((end_session_lookup_other now st sid a (Ne.symm ha)).trans h)

/-- Claim C7: session creation fails with CapacityExceeded whenever the live
session count is at or above the configured maximum (that check runs first),
fails with AlreadyExists when the supplied identifier collides with a live
session, and otherwise allocates a new idle session together with its lock;
a failed creation returns the registry unchanged; and from a full registry,
ending a live session makes a retried creation of that identifier succeed. -/
theorem create_session_spec (settings : Settings) (now : Int)
    (st : SessionManagerState) (sid : SessionId) (opts : Option SessionOptions) :
    (st.sessions.length ≥ settings.max_concurrent_sessions →
       create_session settings now st (some sid) opts = (.error .capacityExceeded, st)) ∧
    (st.sessions.length < settings.max_concurrent_sessions →
       (alistLookup st.sessions sid).isSome →
       create_session settings now st (some sid) opts = (.error .alreadyExists, st)) ∧
    (st.sessions.length < settings.max_concurrent_sessions →
       alistLookup st.sessions sid = none →
       ∃ s : AgentSession,
         create_session settings now st (some sid) opts =
           (.ok s,
            { sessions := alistInsert st.sessions sid s
              session_locks := alistInsert st.session_locks sid () }) ∧
         s.status = .idle ∧ s.id = sid ∧ s.message_count = 0 ∧
         alistLookup
           (create_session settings now st (some sid) opts).2.sessions sid = some s ∧
         alistLookup
           (create_session settings now st (some sid) opts).2.session_locks sid
           = some ()) ∧
    (∀ e : CreateSessionError,
       (create_session settings now st (some sid) opts).1 = .error e →
       (create_session settings now st (some sid) opts).2 = st) ∧
    (st.sessions.length = settings.max_concurrent_sessions →
       (alistLookup st.sessions sid).isSome →
       ∃ s : AgentSession,
         (create_session settings now (end_session now st sid).2 (some sid) opts).1
           = .ok s ∧ s.status = .idle) := by
  refine ⟨?_, ?_, ?_, ?_, ?_⟩
  · intro hcap
    simp [create_session, hcap]
  · intro hcap hcol
    rw [create_session]
    simp [not_le.mpr hcap, hcol]
  · intro hcap habs
    refine ⟨{ id := sid, created_at := now, updated_at := now, status := .idle,
              options := opts.getD {}, message_count := 0,
              error_message := none }, ?_, rfl, rfl, rfl, ?_, ?_⟩
    · rw [create_session]
      simp [not_le.mpr hcap, habs]
    · rw [create_session]
      simp [not_le.mpr hcap, habs, alistLookup_insert_self]
    · rw [create_session]
      simp [not_le.mpr hcap, habs, alistLookup_insert_self]
  · intro e he
    rw [create_session] at he ⊢
    by_cases hcap : st.sessions.length ≥ settings.max_concurrent_sessions
    · simp [hcap]
    · by_cases hcol : (alistLookup st.sessions sid).isSome
      · simp [hcap, hcol]
      · exfalso
        simp [hcap, hcol] at he
  · intro hfull hlive
    have hafter : alistLookup (end_session now st sid).2.sessions sid = none :=
      end_session_lookup_self now st sid
    have hlen : (end_session now st sid).2.sessions.length
        < settings.max_concurrent_sessions := by
      have h2 := end_session_length_lt now st sid hlive
      omega
    refine ⟨{ id := sid, created_at := now, updated_at := now, status := .idle,
              options := opts.getD {}, message_count := 0,
              error_message := none }, ?_, rfl⟩
    rw [create_session]
    simp [not_le.mpr hlen, hafter]

def w7settings : Settings :=
  { max_concurrent_sessions := 1, session_timeout_seconds := 3600 }

def w7session : AgentSession :=
  { id := 0, created_at := 0, updated_at := 0, status := .idle, options := {},
    message_count := 0, error_message := none }

def w7full : SessionManagerState :=
  { sessions := [(0, w7session)], session_locks := [(0, ())] }

/-- Witness for create_session_spec: with the maximum set to 1 and one live
session, a further creation fails with CapacityExceeded, and ending the live
session lets a retried creation succeed. -/
theorem create_session_spec_witness :
    create_session w7settings 5 w7full (some 1) none =
      (.error .capacityExceeded, w7full) ∧
    (∃ s : AgentSession,
       (create_session w7settings 5 (end_session 5 w7full 0).2 (some 0) none).1
         = .ok s ∧ s.status = .idle) :=
  ⟨(create_session_spec w7settings 5 w7full 1 none).1 (by decide),
   (create_session_spec w7settings 5 w7full 0 none).2.2.2.2 (by decide) (by decide)⟩

/-- Claim C10: ending a session through the registry — in particular the
idle reaper's eviction — mutates only the registry's own sessions and lock
maps and never the adapter: an evicted session's backend agent handle stays
in active_agents until end_agent is called separately, which then removes
it. -/
theorem end_session_adapter_frame (settings : Settings) (now : Int)
    (closeFails : SessionId → Bool) (srv : ServerState) (sid : SessionId)
    (hlive : (alistLookup srv.adapter.active_agents sid).isSome) :
    (server_end_session now srv sid).2.adapter = srv.adapter ∧
    (server_cleanup_idle_sessions settings now srv).adapter = srv.adapter ∧
    (alistLookup
       (server_cleanup_idle_sessions settings now srv).adapter.active_agents
       sid).isSome ∧
    (∀ s : AgentSession, alistLookup srv.registry.sessions sid = some s →
       s.status = .idle →
       s.updated_at < now - settings.session_timeout_seconds →
       alistLookup
         (server_cleanup_idle_sessions settings now srv).registry.sessions sid
         = none) ∧
    alistLookup
      (server_end_agent closeFails
         (server_cleanup_idle_sessions settings now srv) sid).2.adapter.active_agents
      sid = none := by
  refine ⟨rfl, rfl, hlive, ?_, ?_⟩
  · intro s hs hidle hstale
    unfold server_cleanup_idle_sessions cleanup_idle_sessions
    apply foldl_end_session_lookup_none
    left
    refine List.mem_map.mpr ⟨(sid, s), ?_, rfl⟩
    refine List.mem_filter.mpr ⟨alistLookup_mem _ _ _ hs, ?_⟩
    simp [hidle, hstale]
  · unfold server_end_agent end_agent
    simp only [server_cleanup_idle_sessions]
    simp [hlive, alistLookup_erase_self]

def w10session : AgentSession :=
  { id := 1, created_at := 0, updated_at := 0, status := .idle, options := {},
    message_count := 0, error_message := none }

def w10srv : ServerState :=
  { registry := { sessions := [(1, w10session)], session_locks := [(1, ())] }
    adapter :=
      { active_agents := [(1, ())], agent_options := [],
        pending_permissions := [], permission_futures := [],
        permission_callbacks := [], mcp_server_configs := [] } }

/-- Witness for end_session_adapter_frame: session 1, idle since time 0, is
evicted by the reaper at time 100000, yet its agent handle survives until
end_agent runs. -/
theorem end_session_adapter_frame_witness :
    (alistLookup
       (server_cleanup_idle_sessions defaultSettings 100000 w10srv).adapter.active_agents
       1).isSome ∧
    alistLookup
      (server_cleanup_idle_sessions defaultSettings 100000 w10srv).registry.sessions 1
      = none ∧
    alistLookup
      (server_end_agent (fun _ => false)
         (server_cleanup_idle_sessions defaultSettings 100000 w10srv) 1).2.adapter.active_agents
      1 = none :=
  ⟨(end_session_adapter_frame defaultSettings 100000 (fun _ => false) w10srv 1
      (by decide)).2.2.1,
   (end_session_adapter_frame defaultSettings 100000 (fun _ => false) w10srv 1
      (by decide)).2.2.2.1 w10session (by decide) (by decide) (by decide),
   (end_session_adapter_frame defaultSettings 100000 (fun _ => false) w10srv 1
      (by decide)).2.2.2.2⟩

def c3State : AgentManagerState :=
  { active_agents := [(1, ()), (2, ()), (3, ())], agent_options := [],
    pending_permissions := [], permission_futures := [],
    permission_callbacks := [], mcp_server_configs := [] }

/-- Claim C3 (code bug, evaluated at the failing input): with three live
agent handles, handle_kill_all_agents does return killed_count = 3 and
leaves no live handle, but the reply's sessions_ended list is read from
active_agents only after the kill has emptied it, so it is the empty list
rather than the set of session ids that were active — session 1 was active
yet is absent from the reply. -/
theorem kill_all_agents_reply_bug :
    (handle_kill_all_agents (fun _ => false) c3State).1.killed_count = 3 ∧
    (handle_kill_all_agents (fun _ => false) c3State).2.active_agents = [] ∧
    (handle_kill_all_agents (fun _ => false) c3State).1.sessions_ended = [] ∧
    (1 : SessionId) ∉ (handle_kill_all_agents (fun _ => false) c3State).1.sessions_ended := by
  decide

/-- Claim C9: the permission-requirement predicate.  With the session's
agent options present: a permission mode other than the literal default
never requires permission; in default mode the built-ins Write, Edit and
Bash always require it, any other non-namespaced tool does not; a
namespaced mcp__server__tool name requires it exactly as its server
configuration's require_permission flag says, and requires it when that
configuration is absent or the name has fewer than three __ segments. -/
theorem requires_permission_spec (st : AgentManagerState) (sid : SessionId)
    (agentOptions : ClaudeAgentOptions)
    (hopts : alistLookup st.agent_options sid = some agentOptions) :
    (agentOptions.permission_mode ≠ "default" →
       ∀ tool_name : String, requires_permission st sid tool_name = false) ∧
    (agentOptions.permission_mode = "default" →
       requires_permission st sid "Write" = true ∧
       requires_permission st sid "Edit" = true ∧
       requires_permission st sid "Bash" = true ∧
       requires_permission st sid "Read" = false) ∧
    (agentOptions.permission_mode = "default" →
       ∀ (tool_name server_name : String) (cfg : MCPServerConfig),
         pyStartsWith tool_name "mcp__" = true →
         (splitOnDoubleUnderscore tool_name).length ≥ 3 →
         (splitOnDoubleUnderscore tool_name).get? 1 = some server_name →
         alistLookup ((alistLookup st.mcp_server_configs sid).getD []) server_name
           = some cfg →
         requires_permission st sid tool_name = cfg.require_permission) ∧
    (agentOptions.permission_mode = "default" →
       ∀ (tool_name server_name : String),
         pyStartsWith tool_name "mcp__" = true →
         (splitOnDoubleUnderscore tool_name).length ≥ 3 →
         (splitOnDoubleUnderscore tool_name).get? 1 = some server_name →
         alistLookup ((alistLookup st.mcp_server_configs sid).getD []) server_name
           = none →
         requires_permission st sid tool_name = true) ∧
    (agentOptions.permission_mode = "default" →
       ∀ tool_name : String,
         pyStartsWith tool_name "mcp__" = true →
         (splitOnDoubleUnderscore tool_name).length < 3 →
         requires_permission st sid tool_name = true) := by
  refine ⟨?_, ?_, ?_, ?_, ?_⟩
  · intro hmode tool_name
    simp [requires_permission, hopts, hmode]
  · intro hmode
    have hW : pyStartsWith "Write" "mcp__" = false := by decide
    have hE : pyStartsWith "Edit" "mcp__" = false := by decide
    have hB : pyStartsWith "Bash" "mcp__" = false := by decide
    have hR : pyStartsWith "Read" "mcp__" = false := by decide
    refine ⟨?_, ?_, ?_, ?_⟩ <;>
      simp [requires_permission, hopts, hmode, hW, hE, hB, hR]
  · intro hmode tool_name server_name cfg hsw hlen hget hcfg
    simp only [requires_permission, hopts, hmode, ne_eq, not_true_eq_false,
      if_false, hsw, if_true, hlen, hget, hcfg]
  · intro hmode tool_name server_name hsw hlen hget hcfg
    simp only [requires_permission, hopts, hmode, ne_eq, not_true_eq_false,
      if_false, hsw, if_true, hlen, hget, hcfg]
  · intro hmode tool_name hsw hlen
    simp only [requires_permission, hopts, hmode, ne_eq, not_true_eq_false,
      if_false, hsw, if_true]
    simp [Nat.not_le.mpr hlen]

def w9state : AgentManagerState :=
  { active_agents := [(1, ()), (2, ())]
    agent_options :=
      [(1, { permission_mode := "default" }),
       (2, { permission_mode := "acceptEdits" })]
    pending_permissions := []
    permission_futures := []
    permission_callbacks := []
    mcp_server_configs :=
      [(1, [("filesys", { name := "filesys", require_permission := false }),
            ("shell", { name := "shell", require_permission := true })])] }

/-- Witness for requires_permission_spec: a non-default-mode session never
requires permission; a default-mode session requires it for Write, follows
the per-server flag for namespaced tools, and fail-safes to requiring it
for unknown servers and malformed names. -/
theorem requires_permission_spec_witness :
    requires_permission w9state 2 "Write" = false ∧
    requires_permission w9state 1 "Write" = true ∧
    requires_permission w9state 1 "mcp__filesys__read" = false ∧
    requires_permission w9state 1 "mcp__shell__run" = true ∧
    requires_permission w9state 1 "mcp__unknown__x" = true ∧
    requires_permission w9state 1 "mcp__x" = true :=
  ⟨(requires_permission_spec w9state 2 { permission_mode := "acceptEdits" }
      (by decide)).1 (by decide) "Write",
   ((requires_permission_spec w9state 1 { permission_mode := "default" }
      (by decide)).2.1 rfl).1,
   (requires_permission_spec w9state 1 { permission_mode := "default" }
      (by decide)).2.2.1 rfl "mcp__filesys__read" "filesys"
      { name := "filesys", require_permission := false }
      (by decide) (by decide) (by decide) (by decide),
   (requires_permission_spec w9state 1 { permission_mode := "default" }
      (by decide)).2.2.1 rfl "mcp__shell__run" "shell"
      { name := "shell", require_permission := true }
      (by decide) (by decide) (by decide) (by decide),
   (requires_permission_spec w9state 1 { permission_mode := "default" }
      (by decide)).2.2.2.1 rfl "mcp__unknown__x" "unknown"
      (by decide) (by decide) (by decide) (by decide),
   (requires_permission_spec w9state 1 { permission_mode := "default" }
      (by decide)).2.2.2.2 rfl "mcp__x" (by decide) (by decide)⟩

/-! ## Supporting lemmas for the permission broker -/

theorem pendingLookupMap_insert_self
    (pm : List (SessionId × List (RequestId × PermissionData)))
    (sid : SessionId) (rid : RequestId) (d : PermissionData) :
    pendingLookupMap (pendingInsert pm sid rid d) sid rid = some d := by
  unfold pendingLookupMap pendingInsert
  rcases h : alistLookup pm sid with _ | m
  · simp [alistLookup_insert_self, alistLookup]
  · simp [alistLookup_insert_self]

theorem pendingLookupMap_erase_self
    (pm : List (SessionId × List (RequestId × PermissionData)))
    (sid : SessionId) (rid : RequestId) :
    pendingLookupMap (pendingErase pm sid rid) sid rid = none := by
  unfold pendingLookupMap pendingErase
  rcases h : alistLookup pm sid with _ | m
  · simp [h]
  · by_cases hm : (alistErase m rid).isEmpty
    · simp [h, hm, alistLookup_erase_self]
    · simp [h, hm, alistLookup_insert_self, alistLookup_erase_self]

/-- Claim C1 (amended): a stale or repeated resolution never changes the
decision.  When no future entry exists for the request id (unknown id, or
the suspended hook already resumed / timed out and deleted it), resolve is
a no-op returning False.  When the future entry is still present but already
resolved — a second resolve arriving before the suspended hook resumes —
resolve returns True, leaves the resolved value (the delivered decision)
untouched, and, the pending metadata having been removed by the first
resolution, changes nothing at all. -/
theorem handle_permission_response_stale (st : AgentManagerState)
    (sid : SessionId) (rid : RequestId) (a : Bool) :
    (alistLookup st.permission_futures rid = none →
       handle_permission_response st sid rid a = { ok := false, state := st, acks := [] }) ∧
    (∀ b : Bool, alistLookup st.permission_futures rid = some (.resolvedFut b) →
       (handle_permission_response st sid rid a).ok = true ∧
       alistLookup
         (handle_permission_response st sid rid a).state.permission_futures rid
         = some (.resolvedFut b) ∧
       (pendingLookup st sid rid = none →
          handle_permission_response st sid rid a
            = { ok := true, state := st, acks := [] })) := by
  constructor
  · intro hfut
    unfold handle_permission_response
    rw [hfut]
  · intro b hfut
    unfold handle_permission_response
    rw [hfut]
    rcases hpend : pendingLookup st sid rid with _ | d
    · exact ⟨rfl, by rw [hfut], fun _ => rfl⟩
    · refine ⟨rfl, ?_, fun hnone => by simp [hpend] at hnone⟩
      simpa using hfut

def c1Base : AgentManagerState :=
  { active_agents := [(7, ())]
    agent_options := [(7, { permission_mode := "default" })]
    pending_permissions := []
    permission_futures := []
    permission_callbacks := [(7, ())]
    mcp_server_configs := [] }

def c1Registered : AgentManagerState :=
  pretool_hook_register c1Base 7 "req-c1" "Write" [("file_path", "a.txt")] "toolu-1" 50

def c1AfterFirst : AgentManagerState :=
  (handle_permission_response c1Registered 7 "req-c1" true).state

/-- Counterexample to claim C1 as stated: after a permission request has
been resolved (and before the suspended hook resumes and deletes the
resolved future), a second resolve call returns True — not False as the
claim requires — although it is indeed a no-op: the state and the resolved
decision are unchanged. -/
theorem handle_permission_response_second_not_false :
    (handle_permission_response c1Registered 7 "req-c1" true).ok = true ∧
    (handle_permission_response c1AfterFirst 7 "req-c1" false).ok = true ∧
    (handle_permission_response c1AfterFirst 7 "req-c1" false).state = c1AfterFirst ∧
    alistLookup
      (handle_permission_response c1AfterFirst 7 "req-c1" false).state.permission_futures
      "req-c1" = some (.resolvedFut true) := by
  decide

/-- Witness for handle_permission_response_stale: an unknown request id is
rejected with False and no state change; a repeat resolve of the already
resolved request returns True and changes nothing. -/
theorem handle_permission_response_stale_witness :
    handle_permission_response c1Base 7 "req-unknown" true
      = { ok := false, state := c1Base, acks := [] } ∧
    (handle_permission_response c1AfterFirst 7 "req-c1" false).ok = true ∧
    alistLookup
      (handle_permission_response c1AfterFirst 7 "req-c1" false).state.permission_futures
      "req-c1" = some (.resolvedFut true) ∧
    handle_permission_response c1AfterFirst 7 "req-c1" false
      = { ok := true, state := c1AfterFirst, acks := [] } :=
  ⟨(handle_permission_response_stale c1Base 7 "req-unknown" true).1 (by decide),
   ((handle_permission_response_stale c1AfterFirst 7 "req-c1" false).2 true (by decide)).1,
   ((handle_permission_response_stale c1AfterFirst 7 "req-c1" false).2 true (by decide)).2.1,
   ((handle_permission_response_stale c1AfterFirst 7 "req-c1" false).2 true (by decide)).2.2
     (by decide)⟩

/-- Claim C2 (amended): the pending-request entry and the future are created
together by the interception hook, but they are not removed together: the
timeout and callback-send-failure paths delete only the future and leave
the pending entry in place, and a client resolution deletes only the
pending entry while the future — now resolved — stays in the futures table
until the suspended hook resumes. -/
theorem pending_and_future_lifecycle (st : AgentManagerState) (sid : SessionId)
    (rid : RequestId) (tool : String) (input : List (String × String))
    (tuid : String) (now : Int) (a : Bool) (errText : String) :
    pendingLookup (pretool_hook_register st sid rid tool input tuid now) sid rid
      = some { tool := tool, parameters := input, tool_use_id := tuid,
               timestamp := now,
               has_send_callback := (alistLookup st.permission_callbacks sid).isSome } ∧
    alistLookup
      (pretool_hook_register st sid rid tool input tuid now).permission_futures rid
      = some .pendingFut ∧
    (pretool_hook_timeout st rid).2.pending_permissions = st.pending_permissions ∧
    alistLookup (pretool_hook_timeout st rid).2.permission_futures rid = none ∧
    (pretool_hook_send_failure st rid errText).2.pending_permissions
      = st.pending_permissions ∧
    alistLookup (pretool_hook_send_failure st rid errText).2.permission_futures rid
      = none ∧
    (∀ d : PermissionData, pendingLookup st sid rid = some d →
       alistLookup st.permission_futures rid = some .pendingFut →
       pendingLookup (handle_permission_response st sid rid a).state sid rid = none ∧
       alistLookup
         (handle_permission_response st sid rid a).state.permission_futures rid
         = some (.resolvedFut a)) := by
  refine ⟨?_, ?_, rfl, ?_, rfl, ?_, ?_⟩
  · unfold pretool_hook_register pendingLookup
    exact pendingLookupMap_insert_self _ _ _ _
  · unfold pretool_hook_register
    exact alistLookup_insert_self _ _ _
  · exact alistLookup_erase_self _ _
  · exact alistLookup_erase_self _ _
  · intro d hpend hfut
    unfold handle_permission_response
    rw [hfut]
    unfold pendingLookup at hpend ⊢
    rw [hpend]
    constructor
    · exact pendingLookupMap_erase_self _ _ _
    · exact alistLookup_insert_self _ _ _

def c2Base : AgentManagerState :=
  { active_agents := [(8, ())]
    agent_options := [(8, { permission_mode := "default" })]
    pending_permissions := []
    permission_futures := []
    permission_callbacks := [(8, ())]
    mcp_server_configs := [] }

def c2Registered : AgentManagerState :=
  pretool_hook_register c2Base 8 "req-c2" "Bash" [("command", "ls")] "toolu-2" 55

def c2AfterTimeout : AgentManagerState :=
  (pretool_hook_timeout c2Registered "req-c2").2

/-- Counterexample to claim C2 as stated: after the 30-second timeout fires,
the request id still has an entry in the pending-permissions map but no
longer has one in the futures map, so the two tables are not in one-to-one
correspondence. -/
theorem pending_without_future_after_timeout :
    (pendingLookup c2AfterTimeout 8 "req-c2").isSome = true ∧
    alistLookup c2AfterTimeout.permission_futures "req-c2" = none := by
  decide

def c2WRegistered : AgentManagerState :=
  pretool_hook_register c2Base 8 "req-w2" "Edit" [("file_path", "m.py")] "toolu-3" 60

/-- Witness for pending_and_future_lifecycle at a concrete registration and
a concrete client resolution. -/
theorem pending_and_future_lifecycle_witness :
    pendingLookup c2WRegistered 8 "req-w2"
      = some { tool := "Edit", parameters := [("file_path", "m.py")],
               tool_use_id := "toolu-3", timestamp := 60,
               has_send_callback := true } ∧
    alistLookup c2WRegistered.permission_futures "req-w2" = some .pendingFut ∧
    pendingLookup (handle_permission_response c2WRegistered 8 "req-w2" false).state
      8 "req-w2" = none ∧
    alistLookup
      (handle_permission_response c2WRegistered 8 "req-w2" false).state.permission_futures
      "req-w2" = some (.resolvedFut false) :=
  ⟨(pending_and_future_lifecycle c2Base 8 "req-w2" "Edit" [("file_path", "m.py")]
      "toolu-3" 60 false "").1,
   (pending_and_future_lifecycle c2Base 8 "req-w2" "Edit" [("file_path", "m.py")]
      "toolu-3" 60 false "").2.1,
   ((pending_and_future_lifecycle c2WRegistered 8 "req-w2" "Edit"
      [("file_path", "m.py")] "toolu-3" 60 false "").2.2.2.2.2.2
      { tool := "Edit", parameters := [("file_path", "m.py")],
        tool_use_id := "toolu-3", timestamp := 60, has_send_callback := true }
      (by decide) (by decide)).1,
   ((pending_and_future_lifecycle c2WRegistered 8 "req-w2" "Edit"
      [("file_path", "m.py")] "toolu-3" 60 false "").2.2.2.2.2.2
      { tool := "Edit", parameters := [("file_path", "m.py")],
        tool_use_id := "toolu-3", timestamp := 60, has_send_callback := true }
      (by decide) (by decide)).2⟩

/-- Claim C6 (amended): an intercepted request that receives no resolution
within the 30-second window returns a deny decision whose reason names the
timeout, and the future is discarded — but the pending-request entry for the
identifier is not: it stays in the pending-permissions map. -/
theorem pretool_hook_timeout_spec (st : AgentManagerState) (sid : SessionId)
    (rid : RequestId) (tool : String) (input : List (String × String))
    (tuid : String) (now : Int) :
    (pretool_hook_timeout (pretool_hook_register st sid rid tool input tuid now) rid).1
      = .deny "Permission request timed out" ∧
    alistLookup
      (pretool_hook_timeout
        (pretool_hook_register st sid rid tool input tuid now) rid).2.permission_futures
      rid = none ∧
    pendingLookup
      (pretool_hook_timeout (pretool_hook_register st sid rid tool input tuid now) rid).2
      sid rid
      = some { tool := tool, parameters := input, tool_use_id := tuid,
               timestamp := now,
               has_send_callback := (alistLookup st.permission_callbacks sid).isSome } := by
  refine ⟨rfl, alistLookup_erase_self _ _, ?_⟩
  unfold pretool_hook_timeout pretool_hook_register pendingLookup
  exact pendingLookupMap_insert_self _ _ _ _

def c6Base : AgentManagerState :=
  { active_agents := [(5, ())]
    agent_options := [(5, { permission_mode := "default" })]
    pending_permissions := []
    permission_futures := []
    permission_callbacks := [(5, ())]
    mcp_server_configs := [] }

def c6Registered : AgentManagerState :=
  pretool_hook_register c6Base 5 "req-c6" "Edit" [("file_path", "b.py")] "toolu-5" 70

/-- Counterexample to claim C6 as stated: the timeout path returns the deny
with the timeout reason, but it does not discard the pending state for the
request identifier — the pending-request entry survives the timeout. -/
theorem timeout_keeps_pending_entry :
    (pretool_hook_timeout c6Registered "req-c6").1
      = .deny "Permission request timed out" ∧
    pendingLookup (pretool_hook_timeout c6Registered "req-c6").2 5 "req-c6" ≠ none := by
  decide

/-! ## Supporting lemmas for the stream adapter -/

/-- Two events violate the per-segment dedup discipline when they are both
incomplete (streaming) message events under the same message id with equal
content; dedupDistinct rules that out for an ordered pair. -/
def dedupDistinct (e1 e2 : Event) : Prop :=
  ∀ c1 c2 mid, e1 = Event.message c1 false mid → e2 = Event.message c2 false mid →
    c1 ≠ c2

/-- processAssistant in phase-applied form (definitional). -/
theorem processAssistant_unfold (st : StreamState) (content : List Block) :
    processAssistant st content =
      ((thinkingPhase st).1 ++
        (segmentationPhase (thinkingPhase st).2 content).1 ++
        (processBlocks content).2 ++
        (contentPhase
          { (segmentationPhase (thinkingPhase st).2 content).2 with
              last_message_had_tool_use := hasToolUseBlock content }
          (processBlocks content).1).1,
       (contentPhase
          { (segmentationPhase (thinkingPhase st).2 content).2 with
              last_message_had_tool_use := hasToolUseBlock content }
          (processBlocks content).1).2) := rfl

theorem thinkingPhase_state (st : StreamState) :
    (thinkingPhase st).2 = { st with thinking_sent := true } := by
  unfold thinkingPhase
  by_cases h : st.thinking_sent
  · simp only [h, if_true]
    cases st
    simp_all
  · simp [h]

theorem thinkingPhase_no_message (st : StreamState) (c : String) (b : Bool) (mid : Nat) :
    Event.message c b mid ∉ (thinkingPhase st).1 := by
  unfold thinkingPhase
  split <;> simp

theorem processBlocks_events_toolUse (content : List Block) :
    ∀ e ∈ (processBlocks content).2,
      ∃ n i t inp, e = Event.toolUse n i t inp := by
  induction content with
  | nil => simp [processBlocks]
  | cons blk rest ih =>
      cases blk with
      | text s =>
          intro e he
          exact ih e he
      | toolUse n i t =>
          intro e he
          rcases List.mem_cons.mp he with he | he
          · exact ⟨n, i, t, _, he⟩
          · exact ih e he
      | otherBlock =>
          intro e he
          exact ih e he

theorem processBlocks_no_message (content : List Block) (c : String) (b : Bool)
    (mid : Nat) : Event.message c b mid ∉ (processBlocks content).2 := by
  intro hmem
  obtain ⟨n, i, t, inp, he⟩ := processBlocks_events_toolUse content _ hmem
  cases he

theorem segmentationPhase_no_incomplete (st : StreamState) (content : List Block)
    (c : String) (mid : Nat) :
    Event.message c false mid ∉ (segmentationPhase st content).1 := by
  unfold segmentationPhase flushPhase
  by_cases hseg : st.last_message_had_tool_use = true ∧ hasTextBlock content = true
  · by_cases hbuf : st.message_buffer.isEmpty <;> simp [hseg, hbuf]
  · simp [hseg]

/-- State effect of the segmentation phase: either the segmentation did not
trigger and everything is unchanged, or a fresh id was minted from next_id
(with the dedup set either untouched — empty buffer — or reset). -/
theorem segmentationPhase_state (st : StreamState) (content : List Block) :
    ((segmentationPhase st content).2.current_message_id = st.current_message_id ∧
     (segmentationPhase st content).2.next_id = st.next_id ∧
     (segmentationPhase st content).2.seen_content = st.seen_content ∧
     (segmentationPhase st content).2.message_buffer = st.message_buffer) ∨
    ((segmentationPhase st content).2.current_message_id = st.next_id ∧
     (segmentationPhase st content).2.next_id = st.next_id + 1 ∧
     ((segmentationPhase st content).2.seen_content = st.seen_content ∨
      (segmentationPhase st content).2.seen_content = [])) := by
  unfold segmentationPhase flushPhase
  by_cases hseg : st.last_message_had_tool_use = true ∧ hasTextBlock content = true
  · by_cases hbuf : st.message_buffer.isEmpty
    · right; simp [hseg, hbuf]
    · right; simp [hseg, hbuf]
  · left; simp [hseg]

theorem segmentationPhase_thinking_sent (st : StreamState) (content : List Block) :
    (segmentationPhase st content).2.thinking_sent = st.thinking_sent := by
  unfold segmentationPhase flushPhase
  by_cases hseg : st.last_message_had_tool_use = true ∧ hasTextBlock content = true
  · by_cases hbuf : st.message_buffer.isEmpty <;> simp [hseg, hbuf]
  · simp [hseg]

/-- Event/state characterisation of the content phase: an incomplete message
is emitted only for the assembled unseen content, under the current id, and
it is recorded in the dedup set. -/
theorem contentPhase_incomplete (st : StreamState) (parts : List String)
    (c : String) (mid : Nat)
    (h : Event.message c false mid ∈ (contentPhase st parts).1) :
    c = String.join parts ∧ mid = st.current_message_id ∧
    c ∉ st.seen_content ∧
    (contentPhase st parts).2.seen_content = c :: st.seen_content := by
  unfold contentPhase at *
  by_cases hp : parts.isEmpty
  · simp [hp] at h
  · by_cases hmem : String.join parts ∈ st.seen_content
    · simp [hp, hmem] at h
    · simp only [hp, hmem, if_false, Bool.false_eq_true, if_neg, List.mem_singleton,
        Event.message.injEq] at h
      obtain ⟨hc, _, hmid⟩ := h
      subst hc
      subst hmid
      simp [hp, hmem]

theorem contentPhase_state (st : StreamState) (parts : List String) :
    (contentPhase st parts).2.current_message_id = st.current_message_id ∧
    (contentPhase st parts).2.next_id = st.next_id ∧
    (contentPhase st parts).2.thinking_sent = st.thinking_sent ∧
    ((contentPhase st parts).2.seen_content = st.seen_content ∨
     (String.join parts ∉ st.seen_content ∧
      (contentPhase st parts).2.seen_content = String.join parts :: st.seen_content)) := by
  unfold contentPhase
  by_cases hp : parts.isEmpty
  · simp [hp]
  · by_cases hmem : String.join parts ∈ st.seen_content
    · simp [hp, hmem]
    · simp [hp, hmem]

theorem contentPhase_pairwise (st : StreamState) (parts : List String) :
    (contentPhase st parts).1.Pairwise dedupDistinct := by
  unfold contentPhase dedupDistinct
  by_cases hp : parts.isEmpty
  · simp [hp]
  · by_cases hmem : String.join parts ∈ st.seen_content <;> simp [hp, hmem]

theorem processBlocks_mem_message_iff (content : List Block) (c : String)
    (b : Bool) (mid : Nat) :
    (Event.message c b mid ∈ (processBlocks content).2) = False := by
  simp only [eq_iff_iff, iff_false]
  exact processBlocks_no_message content c b mid

/-- Any incomplete message event emitted while processing one
AssistantMessage carries the resulting state's current id, its content is in
the resulting dedup set, and — when no new id was minted — the content was
not previously seen. -/
theorem processAssistant_incomplete (st : StreamState) (content : List Block)
    (hcur : st.current_message_id < st.next_id) :
    ∀ c mid, Event.message c false mid ∈ (processAssistant st content).1 →
      mid = (processAssistant st content).2.current_message_id ∧
      c ∈ (processAssistant st content).2.seen_content ∧
      ((processAssistant st content).2.current_message_id = st.current_message_id →
        c ∉ st.seen_content) := by
  intro c mid hmem
  by_cases h1 : st.thinking_sent <;>
  by_cases hlast : st.last_message_had_tool_use <;>
  by_cases htext : hasTextBlock content <;>
  by_cases hbuf : st.message_buffer.isEmpty <;>
  by_cases hp : (processBlocks content).1.isEmpty <;>
  by_cases hmem2 : String.join (processBlocks content).1 ∈ st.seen_content <;>
  simp_all [processAssistant, thinkingPhase, segmentationPhase, flushPhase,
    contentPhase, processBlocks_mem_message_iff] <;>
  try (intro h; exact absurd h (by omega))

/-- State effect of processing one AssistantMessage: either no new id was
minted (ids unchanged, the dedup set grown by at most one unseen content),
or a fresh id was taken from next_id. -/
theorem processAssistant_state (st : StreamState) (content : List Block) :
    ((processAssistant st content).2.current_message_id = st.current_message_id ∧
     (processAssistant st content).2.next_id = st.next_id ∧
     ((processAssistant st content).2.seen_content = st.seen_content ∨
      ∃ c, c ∉ st.seen_content ∧
        (processAssistant st content).2.seen_content = c :: st.seen_content)) ∨
    ((processAssistant st content).2.current_message_id = st.next_id ∧
     (processAssistant st content).2.next_id = st.next_id + 1) := by
  by_cases h1 : st.thinking_sent <;>
  by_cases hlast : st.last_message_had_tool_use <;>
  by_cases htext : hasTextBlock content <;>
  by_cases hbuf : st.message_buffer.isEmpty <;>
  by_cases hp : (processBlocks content).1.isEmpty <;>
  by_cases hmem2 : String.join (processBlocks content).1 ∈ st.seen_content <;>
  simp_all [processAssistant, thinkingPhase, segmentationPhase, flushPhase,
    contentPhase]

theorem noIncomplete_pairwise (l : List Event)
    (h : ∀ c mid, Event.message c false mid ∉ l) : l.Pairwise dedupDistinct := by
  induction l with
  | nil => exact List.Pairwise.nil
  | cons a tl ih =>
      refine List.Pairwise.cons ?_ (ih fun c mid hm => h c mid (List.mem_cons_of_mem _ hm))
      intro b _ c1 c2 mid hA _
      subst hA
      exact absurd (List.mem_cons_self _ tl) (h c1 mid)

theorem pairwise_append_noIncomplete (l1 l2 : List Event)
    (h1 : ∀ c mid, Event.message c false mid ∉ l1)
    (h2 : l2.Pairwise dedupDistinct) : (l1 ++ l2).Pairwise dedupDistinct := by
  rw [List.pairwise_append]
  refine ⟨noIncomplete_pairwise l1 h1, h2, ?_⟩
  intro a ha b _ c1 c2 mid hA _
  subst hA
  exact absurd ha (h1 c1 mid)

/-- The events of one AssistantMessage contain at most one incomplete
message event, so they satisfy the dedup discipline among themselves. -/
theorem processAssistant_pairwise (st : StreamState) (content : List Block) :
    (processAssistant st content).1.Pairwise dedupDistinct := by
  rw [processAssistant_unfold]
  simp only [List.append_assoc]
  apply pairwise_append_noIncomplete _ _
    (fun c mid => thinkingPhase_no_message st c false mid)
  apply pairwise_append_noIncomplete _ _
    (fun c mid => segmentationPhase_no_incomplete _ content c mid)
  apply pairwise_append_noIncomplete _ _
    (fun c mid => processBlocks_no_message content c false mid)
  exact contentPhase_pairwise _ _

/-- The invariant tying the emitted trace to the loop state: every
incomplete message event under the current id has its content in the dedup
set, every emitted id precedes the fresh-id counter, the counter is ahead of
the current id, and the trace so far respects the dedup discipline. -/
def StreamInv (evs : List Event) (st : StreamState) : Prop :=
  (∀ c mid, Event.message c false mid ∈ evs →
     mid = st.current_message_id → c ∈ st.seen_content) ∧
  (∀ c mid, Event.message c false mid ∈ evs → mid < st.next_id) ∧
  st.current_message_id < st.next_id ∧
  evs.Pairwise dedupDistinct

theorem streamInv_step (evs : List Event) (st : StreamState) (m : SDKMessage)
    (h : StreamInv evs st) :
    StreamInv (evs ++ (processMessage st m).1) (processMessage st m).2 := by
  obtain ⟨hseen, hid, hcur, hpw⟩ := h
  cases m with
  | system => simpa [processMessage] using ⟨hseen, hid, hcur, hpw⟩
  | unknown => simpa [processMessage] using ⟨hseen, hid, hcur, hpw⟩
  | assistant content =>
      simp only [processMessage]
      have hPA1 := processAssistant_incomplete st content hcur
      have hPA2 := processAssistant_state st content
      have hPA3 := processAssistant_pairwise st content
      refine ⟨?_, ?_, ?_, ?_⟩
      · intro c mid hmem hmid
        rcases List.mem_append.mp hmem with hold | hnew
        · rcases hPA2 with ⟨hc2, _, hs2⟩ | ⟨hc2, _⟩
          · have hc : c ∈ st.seen_content :=
              hseen c mid hold (by rw [hmid, hc2])
            rcases hs2 with hsame | ⟨c0, _, hcons⟩
            · rwa [hsame]
            · rw [hcons]; exact List.mem_cons_of_mem _ hc
          · have h1 := hid c mid hold
            rw [hmid, hc2] at h1
            omega
        · exact (hPA1 c mid hnew).2.1
      · intro c mid hmem
        rcases List.mem_append.mp hmem with hold | hnew
        · have h1 := hid c mid hold
          rcases hPA2 with ⟨_, hn2, _⟩ | ⟨_, hn2⟩ <;> omega
        · have h1 := (hPA1 c mid hnew).1
          rcases hPA2 with ⟨hc2, hn2, _⟩ | ⟨hc2, hn2⟩ <;> omega
      · rcases hPA2 with ⟨hc2, hn2, _⟩ | ⟨hc2, hn2⟩ <;> omega
      · rw [List.pairwise_append]
        refine ⟨hpw, hPA3, ?_⟩
        intro e1 he1 e2 he2 c1 c2 mid hA hB
        subst hA
        subst hB
        obtain ⟨hmid2, _, himp⟩ := hPA1 c2 mid he2
        have h1 := hid c1 mid he1
        rcases hPA2 with ⟨hc2, _, _⟩ | ⟨hc2, _⟩
        · have hmidcur : mid = st.current_message_id := by rw [hmid2, hc2]
          have hc1mem : c1 ∈ st.seen_content := hseen c1 mid he1 hmidcur
          have hc2not : c2 ∉ st.seen_content := himp hc2
          intro heq
          exact hc2not (heq ▸ hc1mem)
        · rw [hmid2, hc2] at h1
          omega

theorem runStream_cons (st : StreamState) (m : SDKMessage) (ms : List SDKMessage) :
    runStream st (m :: ms) =
      ((processMessage st m).1 ++ (runStream (processMessage st m).2 ms).1,
       (runStream (processMessage st m).2 ms).2) := rfl

theorem streamInv_run (msgs : List SDKMessage) (evs : List Event)
    (st : StreamState) (h : StreamInv evs st) :
    StreamInv (evs ++ (runStream st msgs).1) (runStream st msgs).2 := by
  induction msgs generalizing evs st with
  | nil => simpa [runStream] using h
  | cons m ms ih =>
      rw [runStream_cons]
      have h2 := ih _ _ (streamInv_step evs st m h)
      simpa [List.append_assoc] using h2

theorem endOfStreamEvents_no_incomplete (st : StreamState) (c : String)
    (mid : Nat) : Event.message c false mid ∉ endOfStreamEvents st := by
  unfold endOfStreamEvents
  by_cases h1 : st.thinking_sent <;> by_cases h2 : st.message_buffer.isEmpty <;>
    simp [h1, h2]

theorem send_prompt_events_eq (msgs : List SDKMessage) :
    send_prompt_events msgs =
      Event.thinking true ::
        ((runStream initialStreamState msgs).1 ++
          endOfStreamEvents (runStream initialStreamState msgs).2) := rfl

/-- Claim C8: within one submission, each distinct text value is yielded as
an incomplete (streaming) message event at most once per logical message
segment: any two incomplete message events bearing the same message id have
different contents, because an exact repeat of already-seen text is
suppressed by the dedup set, which is reset exactly when a fresh message id
is minted. -/
theorem send_prompt_dedup (msgs : List SDKMessage) :
    (send_prompt_events msgs).Pairwise dedupDistinct := by
  have base : StreamInv [] initialStreamState :=
    ⟨by simp, by simp, by simp [initialStreamState], List.Pairwise.nil⟩
  have h := streamInv_run msgs [] initialStreamState base
  rw [List.nil_append] at h
  obtain ⟨hseen, hid, hcur, hpw⟩ := h
  rw [send_prompt_events_eq]
  refine List.Pairwise.cons ?_ ?_
  · intro e _ c1 c2 mid h1 _
    cases h1
  · rw [List.pairwise_append]
    refine ⟨hpw,
      noIncomplete_pairwise _ (fun c mid => endOfStreamEvents_no_incomplete _ c mid),
      ?_⟩
    intro a _ b hb c1 c2 mid _ hB
    subst hB
    exact absurd hb (endOfStreamEvents_no_incomplete _ c2 mid)

/-- True when the stream contains an AssistantMessage item. -/
def containsAssistant (msgs : List SDKMessage) : Bool :=
  msgs.any fun m => match m with | .assistant _ => true | _ => false

theorem processBlocks_filter_thinkingOff (content : List Block) :
    (processBlocks content).2.filter (fun e => e = Event.thinking false) = [] := by
  rw [List.filter_eq_nil_iff]
  intro e he
  obtain ⟨n, i, t, inp, hE⟩ := processBlocks_events_toolUse content e he
  subst hE
  simp

/-- One AssistantMessage emits thinking(false) exactly when the indicator
was still on, and always leaves it off. -/
theorem processAssistant_thinkingOff (st : StreamState) (content : List Block) :
    (processAssistant st content).1.filter (fun e => e = Event.thinking false)
      = (if st.thinking_sent then [] else [Event.thinking false]) ∧
    (processAssistant st content).2.thinking_sent = true := by
  by_cases h1 : st.thinking_sent <;>
  by_cases hlast : st.last_message_had_tool_use <;>
  by_cases htext : hasTextBlock content <;>
  by_cases hbuf : st.message_buffer.isEmpty <;>
  by_cases hp : (processBlocks content).1.isEmpty <;>
  by_cases hmem2 : String.join (processBlocks content).1 ∈ st.seen_content <;>
  simp_all [processAssistant, thinkingPhase, segmentationPhase, flushPhase,
    contentPhase, List.filter_append, processBlocks_filter_thinkingOff]

theorem runStream_thinkingOff (msgs : List SDKMessage) : ∀ st : StreamState,
    (runStream st msgs).1.filter (fun e => e = Event.thinking false)
      = (if st.thinking_sent then []
         else if containsAssistant msgs then [Event.thinking false] else []) ∧
    (runStream st msgs).2.thinking_sent
      = (st.thinking_sent || containsAssistant msgs) := by
  induction msgs with
  | nil =>
      intro st
      by_cases h : st.thinking_sent <;> simp [runStream, containsAssistant, h]
  | cons m ms ih =>
      intro st
      rw [runStream_cons]
      cases m with
      | assistant content =>
          have hA := processAssistant_thinkingOff st content
          have hI := ih (processAssistant st content).2
          have hrest : (runStream (processAssistant st content).2 ms).1.filter
              (fun e => e = Event.thinking false) = [] := by
            rw [hI.1, hA.2]
            simp
          constructor
          · simp only [processMessage]
            rw [List.filter_append, hA.1, hrest]
            by_cases h : st.thinking_sent <;> simp [containsAssistant, h]
          · simp only [processMessage]
            rw [hI.2, hA.2]
            simp [containsAssistant]
      | system =>
          have hI := ih st
          simp only [processMessage, List.nil_append]
          refine ⟨hI.1.trans ?_, hI.2.trans ?_⟩ <;>
            by_cases h : st.thinking_sent <;> simp [containsAssistant, h]
      | unknown =>
          have hI := ih st
          simp only [processMessage, List.nil_append]
          refine ⟨hI.1.trans ?_, hI.2.trans ?_⟩ <;>
            by_cases h : st.thinking_sent <;> simp [containsAssistant, h]

theorem runStream_no_assistant (msgs : List SDKMessage)
    (h : containsAssistant msgs = false) :
    ∀ st : StreamState, runStream st msgs = ([], st) := by
  induction msgs with
  | nil => intro st; rfl
  | cons m ms ih =>
      intro st
      cases m with
      | assistant content => simp [containsAssistant] at h
      | system =>
          have hms : containsAssistant ms = false := by
            simpa [containsAssistant] using h
          rw [runStream_cons]
          simp [processMessage, ih hms st]
      | unknown =>
          have hms : containsAssistant ms = false := by
            simpa [containsAssistant] using h
          rw [runStream_cons]
          simp [processMessage, ih hms st]

theorem endOfStreamEvents_thinkingOff (st : StreamState) :
    (endOfStreamEvents st).filter (fun e => e = Event.thinking false)
      = if st.thinking_sent then [] else [Event.thinking false] := by
  unfold endOfStreamEvents
  by_cases h1 : st.thinking_sent <;> by_cases h2 : st.message_buffer.isEmpty <;>
    simp [h1, h2]

/-- Claim C5 (amended): the first event of every submission is
thinking(true), and thinking(false) is yielded exactly once per submission —
at the first AssistantMessage item, whether or not it bears text or tool
content, or at stream end if no AssistantMessage item ever arrived. -/
theorem send_prompt_thinking_spec (msgs : List SDKMessage) :
    (send_prompt_events msgs).head? = some (.thinking true) ∧
    (send_prompt_events msgs).filter (fun e => e = Event.thinking false)
      = [.thinking false] ∧
    (containsAssistant msgs = false →
       send_prompt_events msgs = [.thinking true, .thinking false]) ∧
    (∀ (pre : List SDKMessage) (content : List Block) (post : List SDKMessage),
       msgs = pre ++ .assistant content :: post →
       containsAssistant pre = false →
       (processMessage (runStream initialStreamState pre).2
          (.assistant content)).1.head? = some (.thinking false)) := by
  refine ⟨?_, ?_, ?_, ?_⟩
  · rw [send_prompt_events_eq]
    rfl
  · rw [send_prompt_events_eq, List.filter_cons, List.filter_append,
        (runStream_thinkingOff msgs initialStreamState).1,
        endOfStreamEvents_thinkingOff,
        (runStream_thinkingOff msgs initialStreamState).2]
    by_cases h : containsAssistant msgs <;> simp [h, initialStreamState]
  · intro h
    rw [send_prompt_events_eq, runStream_no_assistant msgs h initialStreamState]
    rfl
  · intro pre content post _ hpre
    rw [runStream_no_assistant pre hpre initialStreamState]
    simp [processMessage, processAssistant_unfold, thinkingPhase, initialStreamState]

def c5Msgs : List SDKMessage :=
  [.assistant [.toolUse "Bash" [("command", "ls")] "t1"], .assistant [.text "hi"]]

/-- Counterexample to claim C5 as stated: in a stream whose first item bears
only a tool invocation and whose second item bears the first text,
thinking(false) is yielded at the first — non-text-bearing — item, and the
events of the first text-bearing item contain no thinking event at all. -/
theorem thinking_off_not_at_first_text_item :
    hasTextBlock [Block.toolUse "Bash" [("command", "ls")] "t1"] = false ∧
    (processMessage initialStreamState
       (.assistant [.toolUse "Bash" [("command", "ls")] "t1"])).1
      = [.thinking false, .toolUse "Bash" [("command", "ls")] "t1" none] ∧
    (processMessage
       (processMessage initialStreamState
          (.assistant [.toolUse "Bash" [("command", "ls")] "t1"])).2
       (.assistant [.text "hi"])).1
      = [.message "hi" false 1] := by
  decide

/-- Witness for send_prompt_thinking_spec on a concrete stream: a system
message followed by one text-bearing assistant message, and separately a
stream with no assistant item at all. -/
theorem send_prompt_thinking_spec_witness :
    (send_prompt_events [.system, .assistant [.text "ok"]]).head?
      = some (.thinking true) ∧
    (send_prompt_events [.system, .assistant [.text "ok"]]).filter
      (fun e => e = Event.thinking false) = [.thinking false] ∧
    (processMessage (runStream initialStreamState [.system]).2
       (.assistant [.text "ok"])).1.head? = some (.thinking false) ∧
    send_prompt_events [SDKMessage.system] = [.thinking true, .thinking false] :=
  ⟨(send_prompt_thinking_spec [.system, .assistant [.text "ok"]]).1,
   (send_prompt_thinking_spec [.system, .assistant [.text "ok"]]).2.1,
   (send_prompt_thinking_spec [.system, .assistant [.text "ok"]]).2.2.2
     [.system] [.text "ok"] [] rfl (by decide),
   (send_prompt_thinking_spec [SDKMessage.system]).2.2.1 (by decide)⟩

theorem hasTextBlock_parts_ne (content : List Block)
    (h : hasTextBlock content = true) :
    (processBlocks content).1.isEmpty = false := by
  induction content with
  | nil => simp [hasTextBlock] at h
  | cons blk rest ih =>
      cases blk with
      | text s => simp [processBlocks]
      | toolUse n i t =>
          have hrest : hasTextBlock rest = true := by
            simpa [hasTextBlock] using h
          simpa [processBlocks] using ih hrest
      | otherBlock =>
          have hrest : hasTextBlock rest = true := by
            simpa [hasTextBlock] using h
          simpa [processBlocks] using ih hrest

/-- Claim C4 (amended): when the previous assistant item bore a tool
invocation (the tool flag is set — an intervening assistant item with
neither text nor tool use clears it) and the present item bears text, a
fresh message id is minted from the counter, different from the id in use
before; and when the pre-tool buffer is non-empty, the buffer is flushed as
a complete message under the old id before any of this item's events, the
buffer and dedup set are reset, and the post-tool text is yielded under the
fresh id. -/
theorem processAssistant_segmentation (st : StreamState) (content : List Block)
    (hlast : st.last_message_had_tool_use = true)
    (htext : hasTextBlock content = true)
    (hthink : st.thinking_sent = true)
    (hfresh : st.current_message_id < st.next_id) :
    ((processAssistant st content).2.current_message_id = st.next_id ∧
     (processAssistant st content).2.next_id = st.next_id + 1 ∧
     st.next_id ≠ st.current_message_id) ∧
    (st.message_buffer.isEmpty = false →
       (processAssistant st content).1 =
         Event.message (String.join st.message_buffer) true st.current_message_id
           :: ((processBlocks content).2 ++
             [Event.message (String.join (processBlocks content).1) false
               st.next_id]) ∧
       (processAssistant st content).2.message_buffer
         = [String.join (processBlocks content).1] ∧
       (processAssistant st content).2.seen_content
         = [String.join (processBlocks content).1]) := by
  have hpne := hasTextBlock_parts_ne content htext
  constructor
  · by_cases hbuf : st.message_buffer.isEmpty <;>
      by_cases hmem2 : String.join (processBlocks content).1 ∈ st.seen_content <;>
      simp_all [processAssistant, thinkingPhase, segmentationPhase, flushPhase,
        contentPhase] <;> omega
  · intro hbuf
    simp_all [processAssistant, thinkingPhase, segmentationPhase, flushPhase,
      contentPhase]

def c4Msgs : List SDKMessage :=
  [.assistant [.text "a"], .assistant [.toolUse "Bash" [("command", "ls")] "t1"],
   .assistant [.otherBlock], .assistant [.text "b"]]

/-- Counterexample to claim C4 as stated: a tool-invocation item is observed
(second item) and a later item bears text (fourth item), but because an
assistant item bearing neither text nor tool use intervenes (third item,
clearing the tool flag), no complete=true flush of the pre-tool buffer
precedes the post-tool text, and that text is yielded under message id 0 —
the same identifier used before the tool event, not a fresh one. -/
theorem segmentation_skipped_after_intervening_item :
    send_prompt_events c4Msgs =
      [.thinking true, .thinking false, .message "a" false 0,
       .toolUse "Bash" [("command", "ls")] "t1" none,
       .message "b" false 0, .message "ab" true 0] ∧
    ((send_prompt_events c4Msgs).filter
       (fun e => match e with | .message _ true _ => true | _ => false))
      = [.message "ab" true 0] := by
  decide

def w4st : StreamState :=
  { current_message_id := 0, next_id := 1, message_buffer := ["a"],
    seen_content := ["a"], thinking_sent := true,
    last_message_had_tool_use := true }

/-- Witness for processAssistant_segmentation: pre-tool buffer holding one
chunk, a text block arriving right after a tool-bearing item. -/
theorem processAssistant_segmentation_witness :
    (processAssistant w4st [Block.text "b"]).1
      = Event.message (String.join w4st.message_buffer) true w4st.current_message_id
          :: ((processBlocks [Block.text "b"]).2 ++
            [Event.message (String.join (processBlocks [Block.text "b"]).1) false
              w4st.next_id]) ∧
    (processAssistant w4st [Block.text "b"]).2.current_message_id = w4st.next_id ∧
    w4st.next_id ≠ w4st.current_message_id ∧
    (processAssistant w4st [Block.text "b"]).2.seen_content
      = [String.join (processBlocks [Block.text "b"]).1] :=
  ⟨((processAssistant_segmentation w4st [Block.text "b"] (by decide) (by decide)
      (by decide) (by decide)).2 (by decide)).1,
   (processAssistant_segmentation w4st [Block.text "b"] (by decide) (by decide)
      (by decide) (by decide)).1.1,
   (processAssistant_segmentation w4st [Block.text "b"] (by decide) (by decide)
      (by decide) (by decide)).1.2.2,
   ((processAssistant_segmentation w4st [Block.text "b"] (by decide) (by decide)
      (by decide) (by decide)).2 (by decide)).2.2⟩
